import Mathlib

/-!
Verification of the GBAM columnar file format library (gbam_tools).

The definitions below are a shallow embedding of the Rust sources:
  * `src/gbam_tools/src/meta.rs`    — file header (`FileInfo`), metadata model
  * `src/gbam_tools/src/reader/reader.rs` — reader construction, CRC check,
    block treemap, `fill_record`, `fetch_only` / `restore_template`
  * `src/gbam_tools/src/query/flagstat.rs` — per-record flag statistics

Machine integers are modelled as `Nat` with explicit `% 2^w` where the Rust
code can wrap; byte buffers are `List Nat` of values below 256; fallible code
returns `Option` / `Except`.
-/

namespace Gbam

/-- `U32_SIZE` from the crate root: size of a `u32` in bytes. -/
def U32_SIZE : Nat := 4

/-- `U64_SIZE` from the crate root: size of a `u64` in bytes. -/
def U64_SIZE : Nat := 8

/-- Modelled from the spec: the 8-byte magic constant at file offset 0
("fixed constant established by the format"); the constant itself lives in
the crate root, outside `src/`. Its exact value is irrelevant to the claims;
the bytes of the ASCII string "geeBAM10" are used. -/
def GBAM_MAGIC : List Nat := [103, 101, 101, 66, 65, 77, 49, 48]

/-- `FILE_INFO_SIZE` from `meta.rs`: magic + two version words + seekpos + crc32. -/
def FILE_INFO_SIZE : Nat := U64_SIZE + U32_SIZE * 2 + U64_SIZE + U32_SIZE

/-- Little-endian read of a `u32` from the first four bytes of a buffer
(`byteorder::ReadBytesExt::read_u32::<LittleEndian>`); the catch-all arm is
unreachable in the guarded call sites (the Rust code panics there). -/
def readU32LE : List Nat → Nat
  | b0 :: b1 :: b2 :: b3 :: _ => b0 + 2 ^ 8 * b1 + 2 ^ 16 * b2 + 2 ^ 24 * b3
  | _ => 0

/-- Little-endian read of a `u64` from the first eight bytes of a buffer
(`byteorder::ReadBytesExt::read_u64::<LittleEndian>`). -/
def readU64LE : List Nat → Nat
  | b0 :: b1 :: b2 :: b3 :: b4 :: b5 :: b6 :: b7 :: _ =>
      b0 + 2 ^ 8 * b1 + 2 ^ 16 * b2 + 2 ^ 24 * b3 +
      2 ^ 32 * b4 + 2 ^ 40 * b5 + 2 ^ 48 * b6 + 2 ^ 56 * b7
  | _ => 0

/-- Little-endian encoding of a `u32` as four bytes
(`byteorder::WriteBytesExt::write_u32::<LittleEndian>`). -/
def writeU32LE (n : Nat) : List Nat :=
  [n % 2 ^ 8, n / 2 ^ 8 % 2 ^ 8, n / 2 ^ 16 % 2 ^ 8, n / 2 ^ 24 % 2 ^ 8]

/-- Little-endian encoding of a `u64` as eight bytes
(`byteorder::WriteBytesExt::write_u64::<LittleEndian>`). -/
def writeU64LE (n : Nat) : List Nat :=
  [n % 2 ^ 8, n / 2 ^ 8 % 2 ^ 8, n / 2 ^ 16 % 2 ^ 8, n / 2 ^ 24 % 2 ^ 8,
   n / 2 ^ 32 % 2 ^ 8, n / 2 ^ 40 % 2 ^ 8, n / 2 ^ 48 % 2 ^ 8, n / 2 ^ 56 % 2 ^ 8]

/-- `FileInfo` from `meta.rs`: gbam version pair, seekpos to the metadata,
and the metadata CRC32. -/
structure FileInfo where
  gbam_version : Nat × Nat
  seekpos : Nat
  crc32 : Nat
  deriving DecidableEq, Repr

/-- Range invariants of the Rust field types of `FileInfo`
(`[u32; 2]`, `u64`, `u32`). -/
def FileInfo.WF (fi : FileInfo) : Prop :=
  fi.gbam_version.1 < 2 ^ 32 ∧ fi.gbam_version.2 < 2 ^ 32 ∧
  fi.seekpos < 2 ^ 64 ∧ fi.crc32 < 2 ^ 32

instance (fi : FileInfo) : Decidable fi.WF := by
  unfold FileInfo.WF; infer_instance

/-- `impl From<&[u8]> for FileInfo` in `meta.rs`: asserts the buffer is exactly
`FILE_INFO_SIZE` bytes and starts with the magic, then reads the version
words, the seekpos and the crc32 little-endian at increasing offsets. The
Rust asserts are modelled as `none`. -/
def FileInfo.fromBytes (bytes : List Nat) : Option FileInfo :=
  if bytes.length = FILE_INFO_SIZE ∧ bytes.take U64_SIZE = GBAM_MAGIC then
    some { gbam_version := (readU32LE (bytes.drop U64_SIZE),
                            readU32LE (bytes.drop (U64_SIZE + U32_SIZE))),
           seekpos := readU64LE (bytes.drop (U64_SIZE + 2 * U32_SIZE)),
           crc32 := readU32LE (bytes.drop (U64_SIZE + 2 * U32_SIZE + U64_SIZE)) }
  else none

/-- `impl Into<Vec<u8>> for FileInfo` in `meta.rs`: magic, then the two
version words, the seekpos and the crc32, little-endian. -/
def FileInfo.intoBytes (fi : FileInfo) : List Nat :=
  GBAM_MAGIC ++ writeU32LE fi.gbam_version.1 ++ writeU32LE fi.gbam_version.2 ++
    writeU64LE fi.seekpos ++ writeU32LE fi.crc32

/-- Modelled from the spec: the closed field enumeration of the field catalog
(the `Fields` enum of the external `bam_tools` crate, whose source is not
under `src/`): "the union of all BAM record fields plus two synthetic index
fields for variable-length columns". The claims only need that the set is
closed and contains `RefID`, `NextRefID`, `Flags` and `Mapq`; membership
beyond those is representative. -/
inductive Fields where
  | RefID | Pos | Mapq | Bin | Flags | NextRefID | NextPos | TemplateLength
  | ReadName | RawCigar | RawSequence | RawQual | RawTags
  | LName | NCigar | RawSeqLen | RawQualLen | RawTagsLen
  deriving DecidableEq, Repr, Fintype

/-- Enumeration of all fields (`Fields::iterator()` of `bam_tools`). -/
def Fields.all : List Fields :=
  [.RefID, .Pos, .Mapq, .Bin, .Flags, .NextRefID, .NextPos, .TemplateLength,
   .ReadName, .RawCigar, .RawSequence, .RawQual, .RawTags,
   .LName, .NCigar, .RawSeqLen, .RawQualLen, .RawTagsLen]

/-- Modelled from the spec: the synthetic index fields are the paired
fixed-width offset columns of the variable-width fields; they appear in
`active_fields_iter` but not in `active_data_fields_iter`. -/
def Fields.isIndexField : Fields → Bool
  | .LName | .NCigar | .RawSeqLen | .RawQualLen | .RawTagsLen => true
  | _ => false

/-- `Codecs` from `meta.rs`: the per-field block compression codec. -/
inductive Codecs where
  | Gzip | Lz4
  deriving DecidableEq, Repr

/-- `BlockMeta` from `meta.rs`: file offset of the block and the number of
uncompressed items it holds (`numitems : u32`). -/
structure BlockMeta where
  seekpos : Nat
  numitems : Nat
  deriving DecidableEq, Repr

/-- `FieldMeta` from `meta.rs`: per-field element size (fixed-width fields
only), compressed block sizes, codec, and the ordered block descriptors. -/
structure FieldMeta where
  item_size : Option Nat
  blocks_sizes : List Nat
  codec : Codecs
  blocks : List BlockMeta
  deriving DecidableEq, Repr

/-- `FileMeta` from `meta.rs`: the field-to-metadata mapping. `FileMeta::new`
inserts an entry for every enumerator, so the map is modelled as a total
function. -/
structure FileMeta where
  field_to_meta : Fields → FieldMeta

/-- `FileMeta::view_blocks`: the block descriptor list of a field. -/
def FileMeta.view_blocks (m : FileMeta) (field : Fields) : List BlockMeta :=
  (m.field_to_meta field).blocks

/-- Modelled from the spec: `ParsingTemplate` (file `parse_tmplt.rs`, not
under `src/`) is "a bit-per-field selector". -/
structure ParsingTemplate where
  active : Fields → Bool

/-- Modelled from the spec: `ParsingTemplate::set(field, bool)` switches one
field's bit. -/
def ParsingTemplate.set (t : ParsingTemplate) (field : Fields) (b : Bool) :
    ParsingTemplate :=
  ⟨fun g => if g = field then b else t.active g⟩

/-- Modelled from the spec: `ParsingTemplate::clear()` deactivates every
field. -/
def ParsingTemplate.clearAll (_t : ParsingTemplate) : ParsingTemplate :=
  ⟨fun _ => false⟩

/-- Modelled from the spec: `get_active_data_fields_iter` yields the active
fields that are materialized into records, which "may differ only by implicit
index fields" from the active fields. -/
def ParsingTemplate.activeDataFields (t : ParsingTemplate) : List Fields :=
  Fields.all.filter (fun f => t.active f && !f.isIndexField)

/-- Error kinds of the spec's §7. -/
inductive GbamError where
  | CorruptHeader | MetadataCorrupt | MetadataMalformed | OutOfRange | IoError
  deriving DecidableEq, Repr

/-- `verify_and_parse_meta` from `reader.rs`: slice the first
`FILE_INFO_SIZE` bytes, parse the `FileInfo`, take the byte range from
`seekpos` to end of file, compare its CRC32 against the header's `crc32`, and
only then deserialize the metadata. The CRC32 function (`writer.rs`, not
under `src/`) and the serde-JSON metadata parser are external black boxes and
are taken as parameters; metadata-parse panics are modelled as
`MetadataMalformed`. A `seekpos` beyond end of file makes the Rust slice
panic, modelled as `IoError`. -/
def verify_and_parse_meta (crc : List Nat → Nat)
    (parseMeta : List Nat → Option FileMeta) (mmap : List Nat) :
    Except GbamError FileMeta :=
  if mmap.length < FILE_INFO_SIZE then .error .CorruptHeader
  else
    match FileInfo.fromBytes (mmap.take FILE_INFO_SIZE) with
    | none => .error .CorruptHeader
    | some file_info =>
      if mmap.length < file_info.seekpos then .error .IoError
      else
        let buf := mmap.drop file_info.seekpos
        if crc buf ≠ file_info.crc32 then .error .MetadataCorrupt
        else
          match parseMeta buf with
          | none => .error .MetadataMalformed
          | some m => .ok m

/-- The `Reader` struct from `reader.rs`; the boxed columns are represented
by the metadata and template from which `init_columns` builds them. -/
structure Reader where
  parsing_template : ParsingTemplate
  original_template : ParsingTemplate
  amount : Nat
  file_meta : FileMeta

/-- `Reader::new_with_meta` from `reader.rs`: the record count `amount` is
the fold of `numitems` over the `RefID` field's blocks, in `u32` arithmetic
(hence the `% 2 ^ 32`), and the construction template is saved as
`original_template`. -/
def Reader.new_with_meta (parsing_template : ParsingTemplate)
    (file_meta : FileMeta) : Reader :=
  { parsing_template := parsing_template
    original_template := parsing_template
    amount := (file_meta.view_blocks .RefID).foldl
      (fun acc x => (acc + x.numitems) % 2 ^ 32) 0
    file_meta := file_meta }

/-- `Reader::new` from `reader.rs`: mmap, verify and parse the metadata, then
delegate to `new_with_meta`; any metadata error aborts construction. -/
def Reader.new (crc : List Nat → Nat)
    (parseMeta : List Nat → Option FileMeta) (mmap : List Nat)
    (parsing_template : ParsingTemplate) : Except GbamError Reader :=
  match verify_and_parse_meta crc parseMeta mmap with
  | .error e => .error e
  | .ok file_meta => .ok (Reader.new_with_meta parsing_template file_meta)

/-- `Reader::fetch_only` from `reader.rs`: clear the active template, then
activate exactly the listed fields. -/
def Reader.fetch_only (r : Reader) (fields : List Fields) : Reader :=
  let cleared := r.parsing_template.clearAll
  { r with parsing_template := fields.foldl (fun t field => t.set field true) cleared }

/-- `Reader::restore_template` from `reader.rs`: reinstate the
construction-time template. -/
def Reader.restore_template (r : Reader) : Reader :=
  { r with parsing_template := r.original_template }

/-- A `GbamRecord` as far as the claims need it: which fields have been
populated (`fill_record_field` of the column, file `column.rs` not under
`src/`, writes the field's attribute into the record). -/
def GbamRecord := Fields → Bool

/-- `Reader::fill_record` from `reader.rs`: assert `rec_num < amount` (the
failed assert is modelled as `none`, with no field filled), then invoke
`fill_record_field` on the column of each active data field. -/
def Reader.fill_record (r : Reader) (rec_num : Nat) (rec : GbamRecord) :
    Option GbamRecord :=
  if rec_num < r.amount then
    some (r.parsing_template.activeDataFields.foldl
      (fun acc field => fun g => if g = field then true else acc g) rec)
  else none

/-- The `enumerate().scan(...)` pipeline of `generate_block_treemap`:
`acc` is the `u32` running prefix sum of `numitems` (hence the `% 2 ^ 32`),
`count` the block index; each block emits the pair `(acc, count)`. -/
def treemapGo (acc count : Nat) : List BlockMeta → List (Nat × Nat)
  | [] => []
  | x :: rest => (acc, count) :: treemapGo ((acc + x.numitems) % 2 ^ 32) (count + 1) rest

/-- `generate_block_treemap` from `reader.rs`: the enumerated blocks of a
field, scanned with a `u32` running prefix sum of `numitems`; entry `i` is
the pair (records before block `i`, `i`). The `BTreeMap` is represented as
the association list in insertion order (which is ascending key order). -/
def generate_block_treemap (meta : FileMeta) (field : Fields) :
    List (Nat × Nat) :=
  treemapGo 0 0 (meta.view_blocks field)

/-- Lookup of the greatest key at most `n` in the treemap, the `BTreeMap`
range query the fixed column performs; on the sorted association list this is
the last entry whose key is at most `n`. -/
def treemapLookupLE (m : List (Nat × Nat)) (n : Nat) : Option (Nat × Nat) :=
  match m with
  | [] => none
  | kv :: rest =>
    match treemapLookupLE rest n with
    | some r => some r
    | none => if kv.1 ≤ n then some kv else none

/-- Total item count of a block list: the mathematical sum of `numitems`. -/
def totalItems (blocks : List BlockMeta) : Nat :=
  (blocks.map BlockMeta.numitems).sum

/-- Records before block `i`: the prefix sum of `numitems`. -/
def sumTake (blocks : List BlockMeta) (i : Nat) : Nat :=
  totalItems (blocks.take i)

/-- The `Bundle` struct of `flagstat.rs`: the four per-record values the
analyzer reads (`refid : i32`, `next_ref_id : i32`, `flag : u16`,
`mapq : u8`). -/
structure Bundle where
  refid : Int
  next_ref_id : Int
  flag : Nat
  mapq : Nat
  deriving DecidableEq, Repr

/-- The `Stats` struct of `flagstat.rs`: sixteen counters, each a two-element
array indexed by QC-pass (index 0) / QC-fail (index 1). -/
structure Stats where
  n_reads : Nat × Nat := (0, 0)
  n_mapped : Nat × Nat := (0, 0)
  n_pair_all : Nat × Nat := (0, 0)
  n_pair_map : Nat × Nat := (0, 0)
  n_pair_good : Nat × Nat := (0, 0)
  n_sgltn : Nat × Nat := (0, 0)
  n_read1 : Nat × Nat := (0, 0)
  n_read2 : Nat × Nat := (0, 0)
  n_dup : Nat × Nat := (0, 0)
  n_diffchr : Nat × Nat := (0, 0)
  n_diffhigh : Nat × Nat := (0, 0)
  n_secondary : Nat × Nat := (0, 0)
  n_supp : Nat × Nat := (0, 0)
  n_primary : Nat × Nat := (0, 0)
  n_pmapped : Nat × Nat := (0, 0)
  n_pdup : Nat × Nat := (0, 0)
  deriving DecidableEq, Repr

/-- `Stats::default()`: every counter starts at zero. -/
def Stats.default : Stats := {}

/-- Increment `+= 1` on index `w` of a two-element counter array
(`w = true` is the QC-fail slot, index 1). -/
def bump (p : Nat × Nat) (w : Bool) : Nat × Nat :=
  if w then (p.1, p.2 + 1) else (p.1 + 1, p.2)

/-- `BamFlags::contains` for a single-bit flag constant: the bit is set in
the record's FLAG word. -/
def hasFlag (flag bit : Nat) : Bool :=
  flag &&& bit ≠ 0

/-- `BAM_FPAIRED` from `flagstat.rs`. -/
def BAM_FPAIRED : Nat := 1
/-- `BAM_FPROPER_PAIR` from `flagstat.rs`. -/
def BAM_FPROPER_PAIR : Nat := 2
/-- `BAM_FUNMAP` from `flagstat.rs`. -/
def BAM_FUNMAP : Nat := 4
/-- `BAM_FMUNMAP` from `flagstat.rs`. -/
def BAM_FMUNMAP : Nat := 8
/-- `BAM_FREAD1` from `flagstat.rs`. -/
def BAM_FREAD1 : Nat := 64
/-- `BAM_FREAD2` from `flagstat.rs`. -/
def BAM_FREAD2 : Nat := 128
/-- `BAM_FSECONDARY` from `flagstat.rs`. -/
def BAM_FSECONDARY : Nat := 256
/-- `BAM_FQCFAIL` from `flagstat.rs`. -/
def BAM_FQCFAIL : Nat := 512
/-- `BAM_FDUP` from `flagstat.rs`. -/
def BAM_FDUP : Nat := 1024
/-- `BAM_FSUPPLEMENTARY` from `flagstat.rs`. -/
def BAM_FSUPPLEMENTARY : Nat := 2048

/-- The `collect` function of `flagstat.rs`. The twelve `bitflags` constants
occupy bits 0 through 11, so `BamFlags::from_bits(flag).unwrap()` panics
exactly when the `u16` FLAG word has a bit in `0xF000` set; the panic is
modelled as `none`. Otherwise the counters are updated following the
source's branch structure. -/
def collect (rec : Bundle) (stats : Stats) : Option Stats :=
  if rec.flag &&& 61440 ≠ 0 then none
  else
    let w := hasFlag rec.flag BAM_FQCFAIL
    let stats := { stats with n_reads := bump stats.n_reads w }
    let stats :=
      if hasFlag rec.flag BAM_FSECONDARY then
        { stats with n_secondary := bump stats.n_secondary w }
      else if hasFlag rec.flag BAM_FSUPPLEMENTARY then
        { stats with n_supp := bump stats.n_supp w }
      else
        let s := { stats with n_primary := bump stats.n_primary w }
        let s :=
          if hasFlag rec.flag BAM_FPAIRED then
            let s := { s with n_pair_all := bump s.n_pair_all w }
            let s :=
              if hasFlag rec.flag BAM_FPROPER_PAIR && !hasFlag rec.flag BAM_FUNMAP then
                { s with n_pair_good := bump s.n_pair_good w }
              else s
            let s :=
              if hasFlag rec.flag BAM_FREAD1 then
                { s with n_read1 := bump s.n_read1 w }
              else s
            let s :=
              if hasFlag rec.flag BAM_FREAD2 then
                { s with n_read2 := bump s.n_read2 w }
              else s
            let s :=
              if hasFlag rec.flag BAM_FMUNMAP && !hasFlag rec.flag BAM_FUNMAP then
                { s with n_sgltn := bump s.n_sgltn w }
              else s
            let s :=
              if !hasFlag rec.flag BAM_FUNMAP && !hasFlag rec.flag BAM_FMUNMAP then
                let s := { s with n_pair_map := bump s.n_pair_map w }
                if rec.next_ref_id ≠ rec.refid then
                  let s := { s with n_diffchr := bump s.n_diffchr w }
                  if rec.mapq ≥ 5 then
                    { s with n_diffhigh := bump s.n_diffhigh w }
                  else s
                else s
              else s
            s
          else s
        let s :=
          if !hasFlag rec.flag BAM_FUNMAP then
            { s with n_pmapped := bump s.n_pmapped w }
          else s
        let s :=
          if hasFlag rec.flag BAM_FDUP then
            { s with n_pdup := bump s.n_pdup w }
          else s
        s
    let stats :=
      if !hasFlag rec.flag BAM_FUNMAP then
        { stats with n_mapped := bump stats.n_mapped w }
      else stats
    let stats :=
      if hasFlag rec.flag BAM_FDUP then
        { stats with n_dup := bump stats.n_dup w }
      else stats
    some stats

/-- `BUF_SIZE` from `collect_stats` in `flagstat.rs`. -/
def BUF_SIZE : Nat := 1000000

/-- The batch loop of `collect_stats` in `flagstat.rs`. Each iteration takes
`available_records = min BUF_SIZE (amount - current_record)` records, drives
the `RefID`, `NextRefID`, `Flags` and `Mapq` columns into the scratch record
buffer, and advances `current_record`; the per-record statistics
accumulation (`collect(&recs[offset], &mut stats)`) is commented out in the
source, so `stats` passes through every iteration unchanged. The source's
exit test is `current_record == reader.amount`; the loop starts at 0 and
never overshoots, so it is modelled with `≤`. -/
def collect_stats_go (amount current : Nat) (stats : Stats) : Stats :=
  if amount ≤ current then stats
  else
    let available_records := min BUF_SIZE (amount - current)
    collect_stats_go amount (current + available_records) stats
termination_by amount - current
decreasing_by
  simp_wf
  have h1 : 1 ≤ min BUF_SIZE (amount - current) := by
    unfold BUF_SIZE; omega
  omega

/-- `collect_stats` from `flagstat.rs`, as far as the final `Stats` value it
prints is concerned: starting from `Stats::default()`, run the batch loop
over all `reader.amount` records. -/
def collect_stats (amount : Nat) : Stats :=
  collect_stats_go amount 0 Stats.default

/-- Folding the per-record `collect` over a record sequence: the
accumulation `collect_stats` was evidently meant to perform. -/
def foldCollect (recs : List Bundle) : Option Stats :=
  recs.foldlM (fun s b => collect b s) Stats.default

/-- The six input records of scenario S5, with FLAG values 0x1, 0x1|0x40,
0x1|0x80|0x200, 0x4, 0x100 and 0x400. -/
def s5_bundles : List Bundle :=
  [Bundle.mk 0 0 1 0, Bundle.mk 0 0 65 0, Bundle.mk 0 0 641 0,
   Bundle.mk 0 0 4 0, Bundle.mk 0 0 256 0, Bundle.mk 0 0 1024 0]

/-! ### Helper lemmas -/

theorem readU32LE_eq_getD (l : List Nat) (h : 4 ≤ l.length) :
    readU32LE l =
      l.getD 0 0 + 2 ^ 8 * l.getD 1 0 + 2 ^ 16 * l.getD 2 0 + 2 ^ 24 * l.getD 3 0 := by
  match l, h with
  | b0 :: b1 :: b2 :: b3 :: rest, _ => simp [readU32LE, List.getD]

theorem readU64LE_eq_getD (l : List Nat) (h : 8 ≤ l.length) :
    readU64LE l =
      l.getD 0 0 + 2 ^ 8 * l.getD 1 0 + 2 ^ 16 * l.getD 2 0 + 2 ^ 24 * l.getD 3 0 +
      2 ^ 32 * l.getD 4 0 + 2 ^ 40 * l.getD 5 0 + 2 ^ 48 * l.getD 6 0 +
      2 ^ 56 * l.getD 7 0 := by
  match l, h with
  | b0 :: b1 :: b2 :: b3 :: b4 :: b5 :: b6 :: b7 :: rest, _ =>
    simp [readU64LE, List.getD]

theorem getD_drop (l : List Nat) (k i : Nat) :
    (l.drop k).getD i 0 = l.getD (k + i) 0 := by
  simp [List.getD_eq_getElem?_getD, List.getElem?_drop]

theorem readU32LE_write_append (n : Nat) (rest : List Nat) (h : n < 2 ^ 32) :
    readU32LE (writeU32LE n ++ rest) = n := by
  simp only [writeU32LE, List.cons_append, List.nil_append, readU32LE]
  omega

theorem readU64LE_write_append (n : Nat) (rest : List Nat) (h : n < 2 ^ 64) :
    readU64LE (writeU64LE n ++ rest) = n := by
  simp only [writeU64LE, List.cons_append, List.nil_append, readU64LE]
  omega

theorem fromBytes_of_valid (bytes : List Nat) (hlen : bytes.length = FILE_INFO_SIZE)
    (hmagic : bytes.take U64_SIZE = GBAM_MAGIC) :
    FileInfo.fromBytes bytes =
      some { gbam_version := (readU32LE (bytes.drop 8), readU32LE (bytes.drop 12)),
             seekpos := readU64LE (bytes.drop 16),
             crc32 := readU32LE (bytes.drop 24) } := by
  unfold FileInfo.fromBytes
  rw [if_pos ⟨hlen, hmagic⟩]
  norm_num [U64_SIZE, U32_SIZE]

/-! ### Claims about the file header -/

/-- C2 (counterexample): the claim asserts `FILE_INFO_SIZE` equals 32, but in
`meta.rs` it is `U64_SIZE + U32_SIZE * 2 + U64_SIZE + U32_SIZE`, which is
28. -/
theorem file_info_size_ne_32 : Gbam.FILE_INFO_SIZE ≠ 32 := by decide

/-- C2 (amended): the file header is exactly 28 bytes, laid out little-endian
as an 8-byte magic, two 4-byte version components at offsets 8 and 12, an
8-byte metadata offset at offset 16 and a 4-byte CRC32 at offset 24; header
parsing consumes exactly 28 bytes (`FILE_INFO_SIZE` equals 28), and a buffer
of any other length is rejected. -/
theorem file_header_layout (bytes : List Nat) (hlen : bytes.length = 28)
    (hmagic : bytes.take 8 = GBAM_MAGIC) :
    FILE_INFO_SIZE = 28 ∧
    FileInfo.fromBytes bytes =
      some { gbam_version :=
               (bytes.getD 8 0 + 2 ^ 8 * bytes.getD 9 0 +
                  2 ^ 16 * bytes.getD 10 0 + 2 ^ 24 * bytes.getD 11 0,
                bytes.getD 12 0 + 2 ^ 8 * bytes.getD 13 0 +
                  2 ^ 16 * bytes.getD 14 0 + 2 ^ 24 * bytes.getD 15 0),
             seekpos :=
               bytes.getD 16 0 + 2 ^ 8 * bytes.getD 17 0 +
                 2 ^ 16 * bytes.getD 18 0 + 2 ^ 24 * bytes.getD 19 0 +
                 2 ^ 32 * bytes.getD 20 0 + 2 ^ 40 * bytes.getD 21 0 +
                 2 ^ 48 * bytes.getD 22 0 + 2 ^ 56 * bytes.getD 23 0,
             crc32 :=
               bytes.getD 24 0 + 2 ^ 8 * bytes.getD 25 0 +
                 2 ^ 16 * bytes.getD 26 0 + 2 ^ 24 * bytes.getD 27 0 } ∧
    ∀ bs : List Nat, bs.length ≠ 28 → FileInfo.fromBytes bs = none := by
  refine ⟨by decide, ?_, ?_⟩
  · rw [fromBytes_of_valid bytes (by rw [hlen]; decide) (by simpa [U64_SIZE] using hmagic)]
    rw [readU32LE_eq_getD _ (by simp [hlen]), readU32LE_eq_getD _ (by simp [hlen]),
        readU64LE_eq_getD _ (by simp [hlen]), readU32LE_eq_getD _ (by simp [hlen])]
    simp only [getD_drop]
  · intro bs hbs
    unfold FileInfo.fromBytes
    rw [if_neg]
    intro hcontra
    exact hbs (by have := hcontra.1; simpa [FILE_INFO_SIZE, U32_SIZE, U64_SIZE] using this)

/-- Witness for the amended C2, at the 28-byte buffer made of the magic
followed by twenty zero bytes. -/
theorem file_header_layout_witness :
    (GBAM_MAGIC ++ List.replicate 20 0).length = 28 ∧
    (FILE_INFO_SIZE = 28 ∧
     FileInfo.fromBytes (GBAM_MAGIC ++ List.replicate 20 0) =
       some { gbam_version :=
                ((GBAM_MAGIC ++ List.replicate 20 0).getD 8 0 +
                   2 ^ 8 * (GBAM_MAGIC ++ List.replicate 20 0).getD 9 0 +
                   2 ^ 16 * (GBAM_MAGIC ++ List.replicate 20 0).getD 10 0 +
                   2 ^ 24 * (GBAM_MAGIC ++ List.replicate 20 0).getD 11 0,
                 (GBAM_MAGIC ++ List.replicate 20 0).getD 12 0 +
                   2 ^ 8 * (GBAM_MAGIC ++ List.replicate 20 0).getD 13 0 +
                   2 ^ 16 * (GBAM_MAGIC ++ List.replicate 20 0).getD 14 0 +
                   2 ^ 24 * (GBAM_MAGIC ++ List.replicate 20 0).getD 15 0),
              seekpos :=
                (GBAM_MAGIC ++ List.replicate 20 0).getD 16 0 +
                  2 ^ 8 * (GBAM_MAGIC ++ List.replicate 20 0).getD 17 0 +
                  2 ^ 16 * (GBAM_MAGIC ++ List.replicate 20 0).getD 18 0 +
                  2 ^ 24 * (GBAM_MAGIC ++ List.replicate 20 0).getD 19 0 +
                  2 ^ 32 * (GBAM_MAGIC ++ List.replicate 20 0).getD 20 0 +
                  2 ^ 40 * (GBAM_MAGIC ++ List.replicate 20 0).getD 21 0 +
                  2 ^ 48 * (GBAM_MAGIC ++ List.replicate 20 0).getD 22 0 +
                  2 ^ 56 * (GBAM_MAGIC ++ List.replicate 20 0).getD 23 0,
              crc32 :=
                (GBAM_MAGIC ++ List.replicate 20 0).getD 24 0 +
                  2 ^ 8 * (GBAM_MAGIC ++ List.replicate 20 0).getD 25 0 +
                  2 ^ 16 * (GBAM_MAGIC ++ List.replicate 20 0).getD 26 0 +
                  2 ^ 24 * (GBAM_MAGIC ++ List.replicate 20 0).getD 27 0 } ∧
     ∀ bs : List Nat, bs.length ≠ 28 → FileInfo.fromBytes bs = none) :=
  ⟨by decide, file_header_layout (GBAM_MAGIC ++ List.replicate 20 0) (by decide) (by decide)⟩

/-- C8: a buffer whose first 8 bytes differ from the GBAM magic constant is
a hard rejection: `FileInfo` construction fails and no `FileInfo` value is
produced, whatever the buffer length (so in particular for a 32-byte
buffer). -/
theorem magic_mismatch_rejected (bytes : List Nat)
    (hmagic : bytes.take 8 ≠ GBAM_MAGIC) :
    FileInfo.fromBytes bytes = none := by
  unfold FileInfo.fromBytes
  rw [if_neg]
  intro hcontra
  exact hmagic (by simpa [U64_SIZE] using hcontra.2)

/-- Witness for C8, at the 32-byte all-zero buffer of scenario S1. -/
theorem magic_mismatch_rejected_witness :
    (List.replicate 32 0).take 8 ≠ GBAM_MAGIC ∧
    FileInfo.fromBytes (List.replicate 32 0) = none :=
  ⟨by decide, magic_mismatch_rejected (List.replicate 32 0) (by decide)⟩

/-- C10: serializing a `FileInfo` yields a byte vector of length
`FILE_INFO_SIZE` whose first 8 bytes are the magic, and parsing it back
succeeds and returns the original `FileInfo` (header round-trip). -/
theorem file_info_roundtrip (fi : FileInfo) (h : fi.WF) :
    fi.intoBytes.length = FILE_INFO_SIZE ∧
    fi.intoBytes.take 8 = GBAM_MAGIC ∧
    FileInfo.fromBytes fi.intoBytes = some fi := by
  obtain ⟨⟨v1, v2⟩, s, c⟩ := fi
  obtain ⟨h1, h2, h3, h4⟩ := h
  have hlen : (FileInfo.intoBytes ⟨(v1, v2), s, c⟩).length = FILE_INFO_SIZE := by
    simp [FileInfo.intoBytes, writeU32LE, writeU64LE, GBAM_MAGIC,
      FILE_INFO_SIZE, U32_SIZE, U64_SIZE]
  have htake : (FileInfo.intoBytes ⟨(v1, v2), s, c⟩).take 8 = GBAM_MAGIC := by
    unfold FileInfo.intoBytes
    simp only [List.append_assoc]
    exact List.take_left' (by decide)
  have hd8 : (FileInfo.intoBytes ⟨(v1, v2), s, c⟩).drop 8 =
      writeU32LE v1 ++ (writeU32LE v2 ++ (writeU64LE s ++ writeU32LE c)) := by
    unfold FileInfo.intoBytes
    simp only [List.append_assoc]
    exact List.drop_left' (by decide)
  have hd12 : (FileInfo.intoBytes ⟨(v1, v2), s, c⟩).drop 12 =
      writeU32LE v2 ++ (writeU64LE s ++ writeU32LE c) := by
    have e : FileInfo.intoBytes ⟨(v1, v2), s, c⟩ =
        (GBAM_MAGIC ++ writeU32LE v1) ++ (writeU32LE v2 ++ (writeU64LE s ++ writeU32LE c)) := by
      simp [FileInfo.intoBytes, List.append_assoc]
    rw [e]
    exact List.drop_left' (by simp [GBAM_MAGIC, writeU32LE])
  have hd16 : (FileInfo.intoBytes ⟨(v1, v2), s, c⟩).drop 16 =
      writeU64LE s ++ writeU32LE c := by
    have e : FileInfo.intoBytes ⟨(v1, v2), s, c⟩ =
        (GBAM_MAGIC ++ writeU32LE v1 ++ writeU32LE v2) ++ (writeU64LE s ++ writeU32LE c) := by
      simp [FileInfo.intoBytes, List.append_assoc]
    rw [e]
    exact List.drop_left' (by simp [GBAM_MAGIC, writeU32LE])
  have hd24 : (FileInfo.intoBytes ⟨(v1, v2), s, c⟩).drop 24 = writeU32LE c := by
    have e : FileInfo.intoBytes ⟨(v1, v2), s, c⟩ =
        (GBAM_MAGIC ++ writeU32LE v1 ++ writeU32LE v2 ++ writeU64LE s) ++ writeU32LE c := by
      simp [FileInfo.intoBytes, List.append_assoc]
    rw [e]
    exact List.drop_left' (by simp [GBAM_MAGIC, writeU32LE, writeU64LE])
  refine ⟨hlen, by simpa [U64_SIZE] using htake, ?_⟩
  rw [fromBytes_of_valid _ hlen (by simpa [U64_SIZE] using htake)]
  rw [hd8, hd12, hd16, hd24]
  rw [readU32LE_write_append v1 _ h1, readU32LE_write_append v2 _ h2,
      readU64LE_write_append s _ h3]
  rw [show writeU32LE c = writeU32LE c ++ [] by simp,
      readU32LE_write_append c _ h4]

/-- Witness for C10, at the `FileInfo` with version (1, 2), seekpos 4096 and
crc32 3405691582. -/
theorem file_info_roundtrip_witness :
    (FileInfo.mk (1, 2) 4096 3405691582).WF ∧
    ((FileInfo.mk (1, 2) 4096 3405691582).intoBytes.length = FILE_INFO_SIZE ∧
     (FileInfo.mk (1, 2) 4096 3405691582).intoBytes.take 8 = GBAM_MAGIC ∧
     FileInfo.fromBytes (FileInfo.mk (1, 2) 4096 3405691582).intoBytes =
       some (FileInfo.mk (1, 2) 4096 3405691582)) :=
  ⟨by decide, file_info_roundtrip (FileInfo.mk (1, 2) 4096 3405691582) (by decide)⟩

/-! ### Claims about reader construction -/

/-- C1: when the header parses but the CRC32 of the byte range
`[meta_offset, end_of_file)` differs from the header's `crc32` field,
`Reader::new` returns the *MetadataCorrupt* error and no `Reader` value is
constructed; the result does not depend on the metadata parser, so metadata
deserialization is never attempted. -/
theorem crc_mismatch_aborts (crc : List Nat → Nat)
    (parseMeta : List Nat → Option FileMeta) (mmap : List Nat)
    (tmplt : ParsingTemplate) (fi : FileInfo)
    (hinfo : FileInfo.fromBytes (mmap.take FILE_INFO_SIZE) = some fi)
    (hseek : fi.seekpos ≤ mmap.length)
    (hcrc : crc (mmap.drop fi.seekpos) ≠ fi.crc32) :
    Reader.new crc parseMeta mmap tmplt = .error .MetadataCorrupt := by
  have hlen : ¬ mmap.length < FILE_INFO_SIZE := by
    intro hlt
    unfold FileInfo.fromBytes at hinfo
    rw [if_neg] at hinfo
    · exact Option.noConfusion hinfo
    · intro hc
      have := hc.1
      rw [List.length_take] at this
      omega
  unfold Reader.new verify_and_parse_meta
  rw [if_neg hlen, hinfo]
  simp only [reduceCtorEq]
  rw [if_neg (by omega : ¬ mmap.length < fi.seekpos), if_pos hcrc]

/-- Witness for C1: a 28-byte file that is all header, whose stored crc32 is
1 while the CRC function returns 0, with a metadata parser that would fail if
it were ever consulted. -/
theorem crc_mismatch_aborts_witness :
    FileInfo.fromBytes ((FileInfo.mk (0, 0) 28 1).intoBytes.take FILE_INFO_SIZE) =
      some (FileInfo.mk (0, 0) 28 1) ∧
    (FileInfo.mk (0, 0) 28 1).seekpos ≤ (FileInfo.mk (0, 0) 28 1).intoBytes.length ∧
    (fun _ : List Nat => 0)
        ((FileInfo.mk (0, 0) 28 1).intoBytes.drop (FileInfo.mk (0, 0) 28 1).seekpos) ≠
      (FileInfo.mk (0, 0) 28 1).crc32 ∧
    Reader.new (fun _ => 0) (fun _ => none) (FileInfo.mk (0, 0) 28 1).intoBytes
      ⟨fun _ => false⟩ = .error .MetadataCorrupt :=
  ⟨by decide, by decide, by decide,
   crc_mismatch_aborts (fun _ => 0) (fun _ => none) (FileInfo.mk (0, 0) 28 1).intoBytes
     ⟨fun _ => false⟩ (FileInfo.mk (0, 0) 28 1) (by decide) (by decide) (by decide)⟩

theorem foldl_mod_eq (blocks : List BlockMeta) :
    ∀ acc : Nat, acc + totalItems blocks < 2 ^ 32 →
      blocks.foldl (fun acc x => (acc + x.numitems) % 2 ^ 32) acc =
        acc + totalItems blocks := by
  induction blocks with
  | nil => intro acc _; simp [totalItems]
  | cons x rest ih =>
    intro acc h
    have htot : totalItems (x :: rest) = x.numitems + totalItems rest := by
      simp [totalItems]
    rw [List.foldl_cons, Nat.mod_eq_of_lt (by omega), ih (acc + x.numitems) (by omega)]
    omega

/-- C5: under the invariant that every field's block item counts sum to the
same total (and that the total fits a `u32`, the type of the running sum),
the reader's `amount` equals the `numitems` sum over the block descriptors of
any field; the implementation computes it over the `RefID` field's blocks. -/
theorem reader_amount_eq_sum (tmplt : ParsingTemplate) (meta : FileMeta) (F : Fields)
    (hinv : ∀ f g : Fields, totalItems (meta.view_blocks f) = totalItems (meta.view_blocks g))
    (hfit : totalItems (meta.view_blocks .RefID) < 2 ^ 32) :
    (Reader.new_with_meta tmplt meta).amount = totalItems (meta.view_blocks F) := by
  unfold Reader.new_with_meta
  simp only
  rw [foldl_mod_eq _ 0 (by omega), Nat.zero_add]
  exact hinv .RefID F

/-- Witness for C5, at a metadata whose every field has the block item counts
2 and 3, so the record count is 5. -/
theorem reader_amount_eq_sum_witness :
    (∀ f g : Fields,
       totalItems ((FileMeta.mk fun _ =>
           FieldMeta.mk none [] .Gzip [BlockMeta.mk 0 2, BlockMeta.mk 10 3]).view_blocks f) =
         totalItems ((FileMeta.mk fun _ =>
           FieldMeta.mk none [] .Gzip [BlockMeta.mk 0 2, BlockMeta.mk 10 3]).view_blocks g)) ∧
    totalItems ((FileMeta.mk fun _ =>
        FieldMeta.mk none [] .Gzip [BlockMeta.mk 0 2, BlockMeta.mk 10 3]).view_blocks .RefID) <
      2 ^ 32 ∧
    (Reader.new_with_meta ⟨fun _ => true⟩
        (FileMeta.mk fun _ =>
          FieldMeta.mk none [] .Gzip [BlockMeta.mk 0 2, BlockMeta.mk 10 3])).amount =
      totalItems ((FileMeta.mk fun _ =>
        FieldMeta.mk none [] .Gzip [BlockMeta.mk 0 2, BlockMeta.mk 10 3]).view_blocks .Flags) :=
  ⟨by decide, by decide,
   reader_amount_eq_sum ⟨fun _ => true⟩
     (FileMeta.mk fun _ => FieldMeta.mk none [] .Gzip [BlockMeta.mk 0 2, BlockMeta.mk 10 3])
     .Flags (by decide) (by decide)⟩

theorem foldl_set_active (S : List Fields) :
    ∀ (t : ParsingTemplate) (f : Fields),
      (S.foldl (fun t field => t.set field true) t).active f =
        (t.active f || S.contains f) := by
  induction S with
  | nil => intro t f; simp
  | cons a S ih =>
    intro t f
    rw [List.foldl_cons, ih]
    by_cases h : f = a <;> simp [ParsingTemplate.set, h]

theorem fetch_only_keeps_original (ss : List (List Fields)) :
    ∀ r : Reader,
      (ss.foldl (fun r S => r.fetch_only S) r).original_template =
        r.original_template := by
  induction ss with
  | nil => intro r; rfl
  | cons S ss ih => intro r; rw [List.foldl_cons, ih]; rfl

/-- C7: each `fetch_only(S)` replaces the active parsing template with
exactly the listed fields, and after any sequence of `fetch_only` calls on a
reader constructed with template `T`, `restore_template()` makes the active
parsing template equal to `T` again. -/
theorem restore_template_restores (tmplt : ParsingTemplate) (meta : FileMeta)
    (ss : List (List Fields)) :
    ((ss.foldl (fun r S => r.fetch_only S)
        (Reader.new_with_meta tmplt meta)).restore_template).parsing_template = tmplt ∧
    ∀ (r : Reader) (S : List Fields) (f : Fields),
      (r.fetch_only S).parsing_template.active f = S.contains f := by
  constructor
  · unfold Reader.restore_template
    rw [fetch_only_keeps_original]
    rfl
  · intro r S f
    unfold Reader.fetch_only
    rw [foldl_set_active]
    simp [ParsingTemplate.clearAll]

theorem foldl_mark (S : List Fields) :
    ∀ (m : GbamRecord) (f : Fields),
      (S.foldl (fun acc field => fun g => if g = field then true else acc g) m) f =
        (m f || S.contains f) := by
  induction S with
  | nil => intro m f; simp
  | cons a S ih =>
    intro m f
    rw [List.foldl_cons, ih]
    by_cases h : f = a <;> simp [h]

/-- C9: `fill_record(n, rec)` with `n ≥ amount` fails before any field is
filled (the record is untouched and no column is consulted); with
`n < amount` it fills exactly the fields of the template's active data-field
set, leaving every other field as it was. -/
theorem fill_record_spec (r : Reader) (n : Nat) (rec : GbamRecord) :
    (r.amount ≤ n → r.fill_record n rec = none) ∧
    (n < r.amount →
      r.fill_record n rec =
        some (fun f => rec f || r.parsing_template.activeDataFields.contains f)) := by
  constructor
  · intro h
    unfold Reader.fill_record
    rw [if_neg (by omega)]
  · intro h
    unfold Reader.fill_record
    rw [if_pos h]
    congr 1
    funext f
    exact foldl_mark _ rec f

/-- Witness for C9, at a reader with 5 records and the template activating
`RefID` and `ReadName` (plus the latter's index field, which is not a data
field): record 7 is out of range, record 3 fills exactly the active data
fields. -/
theorem fill_record_spec_witness :
    (Reader.new_with_meta
        ⟨fun f => f = .RefID || f = .ReadName || f = .LName⟩
        (FileMeta.mk fun _ =>
          FieldMeta.mk none [] .Gzip [BlockMeta.mk 0 5])).amount ≤ 7 ∧
    (Reader.new_with_meta
        ⟨fun f => f = .RefID || f = .ReadName || f = .LName⟩
        (FileMeta.mk fun _ =>
          FieldMeta.mk none [] .Gzip [BlockMeta.mk 0 5])).fill_record 7 (fun _ => false) =
      none ∧
    (Reader.new_with_meta
        ⟨fun f => f = .RefID || f = .ReadName || f = .LName⟩
        (FileMeta.mk fun _ =>
          FieldMeta.mk none [] .Gzip [BlockMeta.mk 0 5])).fill_record 3 (fun _ => false) =
      some (fun f => (fun _ : Fields => false) f ||
        (Reader.new_with_meta
          ⟨fun f => f = .RefID || f = .ReadName || f = .LName⟩
          (FileMeta.mk fun _ =>
            FieldMeta.mk none [] .Gzip
              [BlockMeta.mk 0 5])).parsing_template.activeDataFields.contains f) :=
  ⟨by decide,
   (fill_record_spec
     (Reader.new_with_meta
       ⟨fun f => f = .RefID || f = .ReadName || f = .LName⟩
       (FileMeta.mk fun _ => FieldMeta.mk none [] .Gzip [BlockMeta.mk 0 5]))
     7 (fun _ => false)).1 (by decide),
   (fill_record_spec
     (Reader.new_with_meta
       ⟨fun f => f = .RefID || f = .ReadName || f = .LName⟩
       (FileMeta.mk fun _ => FieldMeta.mk none [] .Gzip [BlockMeta.mk 0 5]))
     3 (fun _ => false)).2 (by decide)⟩

/-! ### Claims about the flagstat analyzer -/

theorem collect_stats_go_bounded (k : Nat) :
    ∀ (amount current : Nat) (stats : Stats), amount - current ≤ k →
      collect_stats_go amount current stats = stats := by
  induction k with
  | zero =>
    intro amount current stats h
    rw [collect_stats_go]
    rw [if_pos (by omega)]
  | succ k ih =>
    intro amount current stats h
    rw [collect_stats_go]
    split
    · rfl
    · apply ih
      have h1 : 1 ≤ min BUF_SIZE (amount - current) := by
        unfold BUF_SIZE; omega
      omega

/-- C3 (code evidence): the batch loop of `collect_stats` never invokes the
per-record `collect` (the call is commented out in the source), so the
printed statistics are all zero; in particular for the six S5 records the
printed `n_reads` totals 0, not 6, even though folding the (intended, but
dead) `collect` over those six records does yield the counters the claim
lists. -/
theorem collect_stats_never_counts :
    collect_stats 6 = Stats.default ∧
    (collect_stats 6).n_reads.1 + (collect_stats 6).n_reads.2 = 0 ∧
    foldCollect s5_bundles = some
      { n_reads := (5, 1), n_mapped := (4, 1), n_pair_all := (2, 1),
        n_pair_map := (2, 1), n_pair_good := (0, 0), n_sgltn := (0, 0),
        n_read1 := (1, 0), n_read2 := (0, 1), n_dup := (1, 0),
        n_diffchr := (0, 0), n_diffhigh := (0, 0), n_secondary := (1, 0),
        n_supp := (0, 0), n_primary := (4, 1), n_pmapped := (3, 1),
        n_pdup := (1, 0) } := by
  have hz : collect_stats 6 = Stats.default :=
    collect_stats_go_bounded 6 6 0 Stats.default (by omega)
  refine ⟨hz, by rw [hz]; rfl, by decide⟩

/-- C4 (counterexample): for the bundle with FLAG 0x1000 (a bit outside the
twelve defined BAM flags), `BamFlags::from_bits(flag).unwrap()` panics, so
`collect` produces no updated statistics at all — in particular `n_reads` is
not incremented as the claim requires for every bundle. -/
theorem collect_unknown_bits_counterexample :
    collect (Bundle.mk 0 0 4096 0) Stats.default = none ∧
    ¬ ∃ s' : Stats, collect (Bundle.mk 0 0 4096 0) Stats.default = some s' ∧
        s'.n_reads = bump Stats.default.n_reads (hasFlag 4096 BAM_FQCFAIL) := by
  have h : collect (Bundle.mk 0 0 4096 0) Stats.default = none := by decide
  exact ⟨h, fun ⟨s', hs, _⟩ => by rw [h] at hs; exact Option.noConfusion hs⟩

set_option maxHeartbeats 2000000 in
/-- C4 (amended): for every bundle whose FLAG word uses only the twelve
defined BAM flag bits (no bit of 0xF000 set), `collect` succeeds and, with
`w` the QCFAIL selector, increments exactly the counters the claim lists:
`n_reads` always; `n_secondary` under FSECONDARY; `n_supp` under
FSUPPLEMENTARY (not FSECONDARY); `n_primary` otherwise, and in that branch
under FPAIRED the pair counters with their side conditions, then `n_pmapped`
and `n_pdup`; and unconditionally `n_mapped` and `n_dup`. -/
theorem collect_characterization (b : Bundle) (s : Stats)
    (hbits : b.flag &&& 61440 = 0) :
    ∃ s' : Stats, collect b s = some s' ∧
      s'.n_reads = bump s.n_reads (hasFlag b.flag BAM_FQCFAIL) ∧
      s'.n_secondary = (if hasFlag b.flag BAM_FSECONDARY then
        bump s.n_secondary (hasFlag b.flag BAM_FQCFAIL) else s.n_secondary) ∧
      s'.n_supp = (if !hasFlag b.flag BAM_FSECONDARY && hasFlag b.flag BAM_FSUPPLEMENTARY then
        bump s.n_supp (hasFlag b.flag BAM_FQCFAIL) else s.n_supp) ∧
      s'.n_primary = (if !hasFlag b.flag BAM_FSECONDARY && !hasFlag b.flag BAM_FSUPPLEMENTARY then
        bump s.n_primary (hasFlag b.flag BAM_FQCFAIL) else s.n_primary) ∧
      s'.n_pair_all = (if !hasFlag b.flag BAM_FSECONDARY && !hasFlag b.flag BAM_FSUPPLEMENTARY &&
          hasFlag b.flag BAM_FPAIRED then
        bump s.n_pair_all (hasFlag b.flag BAM_FQCFAIL) else s.n_pair_all) ∧
      s'.n_pair_good = (if !hasFlag b.flag BAM_FSECONDARY && !hasFlag b.flag BAM_FSUPPLEMENTARY &&
          hasFlag b.flag BAM_FPAIRED && hasFlag b.flag BAM_FPROPER_PAIR &&
          !hasFlag b.flag BAM_FUNMAP then
        bump s.n_pair_good (hasFlag b.flag BAM_FQCFAIL) else s.n_pair_good) ∧
      s'.n_read1 = (if !hasFlag b.flag BAM_FSECONDARY && !hasFlag b.flag BAM_FSUPPLEMENTARY &&
          hasFlag b.flag BAM_FPAIRED && hasFlag b.flag BAM_FREAD1 then
        bump s.n_read1 (hasFlag b.flag BAM_FQCFAIL) else s.n_read1) ∧
      s'.n_read2 = (if !hasFlag b.flag BAM_FSECONDARY && !hasFlag b.flag BAM_FSUPPLEMENTARY &&
          hasFlag b.flag BAM_FPAIRED && hasFlag b.flag BAM_FREAD2 then
        bump s.n_read2 (hasFlag b.flag BAM_FQCFAIL) else s.n_read2) ∧
      s'.n_sgltn = (if !hasFlag b.flag BAM_FSECONDARY && !hasFlag b.flag BAM_FSUPPLEMENTARY &&
          hasFlag b.flag BAM_FPAIRED && hasFlag b.flag BAM_FMUNMAP &&
          !hasFlag b.flag BAM_FUNMAP then
        bump s.n_sgltn (hasFlag b.flag BAM_FQCFAIL) else s.n_sgltn) ∧
      s'.n_pair_map = (if !hasFlag b.flag BAM_FSECONDARY && !hasFlag b.flag BAM_FSUPPLEMENTARY &&
          hasFlag b.flag BAM_FPAIRED && !hasFlag b.flag BAM_FUNMAP &&
          !hasFlag b.flag BAM_FMUNMAP then
        bump s.n_pair_map (hasFlag b.flag BAM_FQCFAIL) else s.n_pair_map) ∧
      s'.n_diffchr = (if (!hasFlag b.flag BAM_FSECONDARY && !hasFlag b.flag BAM_FSUPPLEMENTARY &&
          hasFlag b.flag BAM_FPAIRED && !hasFlag b.flag BAM_FUNMAP &&
          !hasFlag b.flag BAM_FMUNMAP) = true ∧ b.next_ref_id ≠ b.refid then
        bump s.n_diffchr (hasFlag b.flag BAM_FQCFAIL) else s.n_diffchr) ∧
      s'.n_diffhigh = (if (!hasFlag b.flag BAM_FSECONDARY && !hasFlag b.flag BAM_FSUPPLEMENTARY &&
          hasFlag b.flag BAM_FPAIRED && !hasFlag b.flag BAM_FUNMAP &&
          !hasFlag b.flag BAM_FMUNMAP) = true ∧ b.next_ref_id ≠ b.refid ∧ 5 ≤ b.mapq then
        bump s.n_diffhigh (hasFlag b.flag BAM_FQCFAIL) else s.n_diffhigh) ∧
      s'.n_pmapped = (if !hasFlag b.flag BAM_FSECONDARY && !hasFlag b.flag BAM_FSUPPLEMENTARY &&
          !hasFlag b.flag BAM_FUNMAP then
        bump s.n_pmapped (hasFlag b.flag BAM_FQCFAIL) else s.n_pmapped) ∧
      s'.n_pdup = (if !hasFlag b.flag BAM_FSECONDARY && !hasFlag b.flag BAM_FSUPPLEMENTARY &&
          hasFlag b.flag BAM_FDUP then
        bump s.n_pdup (hasFlag b.flag BAM_FQCFAIL) else s.n_pdup) ∧
      s'.n_mapped = (if !hasFlag b.flag BAM_FUNMAP then
        bump s.n_mapped (hasFlag b.flag BAM_FQCFAIL) else s.n_mapped) ∧
      s'.n_dup = (if hasFlag b.flag BAM_FDUP then
        bump s.n_dup (hasFlag b.flag BAM_FQCFAIL) else s.n_dup) := by
  by_cases hsec : hasFlag b.flag BAM_FSECONDARY = true <;>
  by_cases hsupp : hasFlag b.flag BAM_FSUPPLEMENTARY = true <;>
  by_cases hpaired : hasFlag b.flag BAM_FPAIRED = true <;>
  by_cases hunmap : hasFlag b.flag BAM_FUNMAP = true <;>
  by_cases hmunmap : hasFlag b.flag BAM_FMUNMAP = true <;>
  simp [collect, hbits, hsec, hsupp, hpaired, hunmap, hmunmap, ite_and] <;>
  (try (split_ifs <;> simp_all [bump]))

/-- Witness for the amended C4, at the bundle with FLAG 0x43
(paired, proper pair, read1), RefID 0, NextRefID 1 and MAPQ 10. -/
theorem collect_characterization_witness :
    (67 : Nat) &&& 61440 = 0 ∧
    ∃ s' : Stats, collect (Bundle.mk 0 1 67 10) Stats.default = some s' ∧
      s'.n_reads = bump Stats.default.n_reads (hasFlag 67 BAM_FQCFAIL) := by
  refine ⟨by decide, ?_⟩
  obtain ⟨s', h1, h2, _⟩ :=
    collect_characterization (Bundle.mk 0 1 67 10) Stats.default (by decide)
  exact ⟨s', h1, h2⟩

/-! ### Claims about the block treemap -/

theorem totalItems_cons (x : BlockMeta) (rest : List BlockMeta) :
    totalItems (x :: rest) = x.numitems + totalItems rest := by
  simp [totalItems]

theorem sumTake_zero (blocks : List BlockMeta) : sumTake blocks 0 = 0 := by
  simp [sumTake, totalItems]

theorem sumTake_cons_succ (x : BlockMeta) (rest : List BlockMeta) (j : Nat) :
    sumTake (x :: rest) (j + 1) = x.numitems + sumTake rest j := by
  simp [sumTake, totalItems]

theorem treemapGo_content (blocks : List BlockMeta) :
    ∀ acc idx : Nat, acc + totalItems blocks < 2 ^ 32 →
      treemapGo acc idx blocks =
        (List.range blocks.length).map (fun i => (acc + sumTake blocks i, idx + i)) := by
  induction blocks with
  | nil => intro acc idx _; simp [treemapGo]
  | cons x rest ih =>
    intro acc idx hfit
    rw [totalItems_cons] at hfit
    rw [treemapGo, Nat.mod_eq_of_lt (by omega), ih (acc + x.numitems) (idx + 1) (by omega)]
    rw [List.length_cons, List.range_succ_eq_map, List.map_cons, List.map_map]
    congr 1
    apply List.map_congr_left
    intro a _
    simp only [Function.comp_apply, Nat.succ_eq_add_one, sumTake_cons_succ,
      Prod.mk.injEq]
    omega

theorem treemapGo_lookup_none (blocks : List BlockMeta) :
    ∀ acc idx n : Nat, n < acc → acc + totalItems blocks < 2 ^ 32 →
      treemapLookupLE (treemapGo acc idx blocks) n = none := by
  induction blocks with
  | nil => intro acc idx n _ _; simp [treemapGo, treemapLookupLE]
  | cons x rest ih =>
    intro acc idx n hn hfit
    rw [totalItems_cons] at hfit
    rw [treemapGo, Nat.mod_eq_of_lt (by omega), treemapLookupLE]
    rw [ih (acc + x.numitems) (idx + 1) n (by omega) (by omega)]
    rw [if_neg (by omega)]

theorem treemapGo_lookup_found (blocks : List BlockMeta) :
    ∀ acc idx n : Nat, (∀ blk ∈ blocks, 1 ≤ blk.numitems) → acc ≤ n →
      n < acc + totalItems blocks → acc + totalItems blocks < 2 ^ 32 →
      ∃ j : Nat, ∃ hj : j < blocks.length,
        treemapLookupLE (treemapGo acc idx blocks) n =
          some (acc + sumTake blocks j, idx + j) ∧
        acc + sumTake blocks j ≤ n ∧
        n - (acc + sumTake blocks j) < (blocks.get ⟨j, hj⟩).numitems := by
  induction blocks with
  | nil =>
    intro acc idx n _ hle hlt _
    rw [totalItems] at hlt
    simp at hlt
    omega
  | cons x rest ih =>
    intro acc idx n hpos hle hlt hfit
    rw [totalItems_cons] at hlt hfit
    rw [treemapGo, Nat.mod_eq_of_lt (by omega), treemapLookupLE]
    by_cases hin : n < acc + x.numitems
    · rw [treemapGo_lookup_none rest (acc + x.numitems) (idx + 1) n (by omega) (by omega)]
      rw [if_pos hle]
      refine ⟨0, by simp, ?_, ?_, ?_⟩
      · simp [sumTake_zero]
      · simp [sumTake_zero]; omega
      · simp [sumTake_zero]; omega
    · obtain ⟨j, hj, hfind, hlo, hhi⟩ :=
        ih (acc + x.numitems) (idx + 1) n
          (fun blk hb => hpos blk (by simp [hb])) (by omega) (by omega) (by omega)
      rw [hfind]
      refine ⟨j + 1, by simpa using Nat.succ_lt_succ hj, ?_, ?_, ?_⟩
      · simp only [sumTake_cons_succ, Option.some.injEq, Prod.mk.injEq]
        constructor <;> omega
      · simp only [sumTake_cons_succ]; omega
      · simp only [sumTake_cons_succ, List.get_cons_succ]
        omega

theorem treemapGo_chain (blocks : List BlockMeta) :
    ∀ acc idx : Nat, (∀ blk ∈ blocks, 1 ≤ blk.numitems) →
      acc + totalItems blocks < 2 ^ 32 →
      List.Chain' (fun p q : Nat × Nat => p.1 < q.1) (treemapGo acc idx blocks) := by
  induction blocks with
  | nil => intro acc idx _ _; simp [treemapGo]
  | cons x rest ih =>
    intro acc idx hpos hfit
    rw [totalItems_cons] at hfit
    have hx : 1 ≤ x.numitems := hpos x (by simp)
    rw [treemapGo, Nat.mod_eq_of_lt (by omega)]
    rw [List.chain'_cons']
    constructor
    · intro p hp
      cases rest with
      | nil => simp [treemapGo] at hp
      | cons y t =>
        rw [treemapGo] at hp
        simp only [List.head?_cons, Option.mem_def, Option.some.injEq] at hp
        cases hp
        simp
        omega
    · exact ih (acc + x.numitems) (idx + 1)
        (fun blk hb => hpos blk (by simp [hb])) (by omega)

/-- C6: for a field whose blocks are all non-empty (and whose total item
count fits the `u32` running sum), `generate_block_treemap` is exactly the
sorted association list of pairs (records before block `i`, `i`) — prefix
sums as keys, strictly increasing — and looking up the greatest key at most
a record number `n` below the total yields the index `i` of the block
containing record `n`, with `n` minus the key the in-block position (below
that block's `numitems`). -/
theorem generate_block_treemap_spec (meta : FileMeta) (field : Fields)
    (hpos : ∀ blk ∈ meta.view_blocks field, 1 ≤ blk.numitems)
    (hfit : totalItems (meta.view_blocks field) < 2 ^ 32) :
    generate_block_treemap meta field =
      (List.range (meta.view_blocks field).length).map
        (fun i => (sumTake (meta.view_blocks field) i, i)) ∧
    List.Chain' (fun p q : Nat × Nat => p.1 < q.1) (generate_block_treemap meta field) ∧
    ∀ n < totalItems (meta.view_blocks field),
      ∃ j : Nat, ∃ hj : j < (meta.view_blocks field).length,
        treemapLookupLE (generate_block_treemap meta field) n =
          some (sumTake (meta.view_blocks field) j, j) ∧
        sumTake (meta.view_blocks field) j ≤ n ∧
        n - sumTake (meta.view_blocks field) j <
          ((meta.view_blocks field).get ⟨j, hj⟩).numitems := by
  refine ⟨?_, ?_, ?_⟩
  · rw [generate_block_treemap, treemapGo_content _ 0 0 (by omega)]
    simp
  · rw [generate_block_treemap]
    exact treemapGo_chain _ 0 0 hpos (by omega)
  · intro n hn
    obtain ⟨j, hj, hfind, hlo, hhi⟩ :=
      treemapGo_lookup_found (meta.view_blocks field) 0 0 n hpos (by omega)
        (by omega) (by omega)
    rw [generate_block_treemap]
    exact ⟨j, hj, by simpa using hfind, by omega, by omega⟩

/-- Witness for C6, at a field with three blocks of 2, 3 and 4 items,
looking up record number 5 (which lies in block 2 at in-block position 0). -/
theorem generate_block_treemap_spec_witness :
    (∀ blk ∈ ((FileMeta.mk fun _ =>
        FieldMeta.mk none [] .Lz4
          [BlockMeta.mk 0 2, BlockMeta.mk 9 3, BlockMeta.mk 20 4]).view_blocks .Flags),
      1 ≤ blk.numitems) ∧
    totalItems ((FileMeta.mk fun _ =>
        FieldMeta.mk none [] .Lz4
          [BlockMeta.mk 0 2, BlockMeta.mk 9 3, BlockMeta.mk 20 4]).view_blocks .Flags) <
      2 ^ 32 ∧
    5 < totalItems ((FileMeta.mk fun _ =>
        FieldMeta.mk none [] .Lz4
          [BlockMeta.mk 0 2, BlockMeta.mk 9 3, BlockMeta.mk 20 4]).view_blocks .Flags) ∧
    (∃ j : Nat, ∃ hj : j < (((FileMeta.mk fun _ =>
          FieldMeta.mk none [] .Lz4
            [BlockMeta.mk 0 2, BlockMeta.mk 9 3,
              BlockMeta.mk 20 4]).view_blocks .Flags)).length,
      treemapLookupLE (generate_block_treemap (FileMeta.mk fun _ =>
          FieldMeta.mk none [] .Lz4
            [BlockMeta.mk 0 2, BlockMeta.mk 9 3, BlockMeta.mk 20 4]) .Flags) 5 =
        some (sumTake (((FileMeta.mk fun _ =>
          FieldMeta.mk none [] .Lz4
            [BlockMeta.mk 0 2, BlockMeta.mk 9 3,
              BlockMeta.mk 20 4]).view_blocks .Flags)) j, j) ∧
      sumTake (((FileMeta.mk fun _ =>
          FieldMeta.mk none [] .Lz4
            [BlockMeta.mk 0 2, BlockMeta.mk 9 3,
              BlockMeta.mk 20 4]).view_blocks .Flags)) j ≤ 5 ∧
      5 - sumTake (((FileMeta.mk fun _ =>
          FieldMeta.mk none [] .Lz4
            [BlockMeta.mk 0 2, BlockMeta.mk 9 3,
              BlockMeta.mk 20 4]).view_blocks .Flags)) j <
        ((((FileMeta.mk fun _ =>
          FieldMeta.mk none [] .Lz4
            [BlockMeta.mk 0 2, BlockMeta.mk 9 3,
              BlockMeta.mk 20 4]).view_blocks .Flags)).get ⟨j, hj⟩).numitems) :=
  ⟨by decide, by decide, by decide,
   (generate_block_treemap_spec
     (FileMeta.mk fun _ =>
       FieldMeta.mk none [] .Lz4
         [BlockMeta.mk 0 2, BlockMeta.mk 9 3, BlockMeta.mk 20 4])
     .Flags (by decide) (by decide)).2.2 5 (by decide)⟩

end Gbam
